import Mathlib

/-!
Verification development for the subs_tracker subscription service.

The Go source is shallowly embedded: `time.Time` values (always UTC in this
code base) become `GoTime` records of calendar fields; the use-case layer
(`normalizeFilter`, `validateAndNormalize`, the CRUD entry points) and the
postgres repository layer (the sqlc queries `SumSubscriptionCost` and
`ListSubscriptions`, plus their Go wrappers `CostSubsByFilter` and
`ListSubsByFilter`) become pure Lean functions over an explicit list of
stored subscription rows.  The repository interface is modelled by a `Repo`
record of functions together with an explicit trace of repository calls, so
that "the repository is not invoked" is expressible.
-/

/-- Field view of a Go `time.Time` in UTC: year, month, day, hour, minute,
second, nanosecond.  The Go code compares times with `Before` (instant
order), which for UTC field views is lexicographic field order. -/
structure GoTime where
  year : Int
  month : Int
  day : Int
  hour : Int
  minute : Int
  sec : Int
  nsec : Int
deriving DecidableEq, Repr

/-- Go's zero time instant: January 1 of year 1, 00:00:00 UTC. -/
def zeroTime : GoTime := ⟨1, 1, 1, 0, 0, 0, 0⟩

/-- `time.Time.IsZero`: the value is the zero instant. -/
def GoTime.isZero (t : GoTime) : Bool := decide (t = zeroTime)

/-- `time.Time.Before`: strict instant order, lexicographic on the UTC
calendar fields. -/
def GoTime.before (a b : GoTime) : Bool :=
  decide (a.year < b.year ∨ (a.year = b.year ∧ (a.month < b.month ∨ (a.month = b.month ∧
    (a.day < b.day ∨ (a.day = b.day ∧ (a.hour < b.hour ∨ (a.hour = b.hour ∧
    (a.minute < b.minute ∨ (a.minute = b.minute ∧ (a.sec < b.sec ∨ (a.sec = b.sec ∧
    a.nsec < b.nsec))))))))))))

/-- SQL `<=` on dates / non-strict instant order: `a <= b` iff not `b < a`. -/
def dateLe (a b : GoTime) : Bool := !(GoTime.before b a)

/-- A month-granularity date as stored by the repository: the migration's
CHECK constraints force `day = 1`, and `DATE` values carry no time of day.
The month field of any real date is between 1 and 12. -/
def isMonthDate (t : GoTime) : Prop :=
  1 ≤ t.month ∧ t.month ≤ 12 ∧ t.day = 1 ∧ t.hour = 0 ∧ t.minute = 0 ∧ t.sec = 0 ∧ t.nsec = 0

instance (t : GoTime) : Decidable (isMonthDate t) := by
  unfold isMonthDate
  infer_instance

/-- Index of a calendar month on the integer time line (month arithmetic
helper for reasoning about one-month steps). -/
def monthIndex (t : GoTime) : Int := t.year * 12 + t.month - 1

/-- One step of Postgres `date + interval '1 month'` on a first-of-month
date: advance the month, rolling over the year after December. -/
def addMonthD (t : GoTime) : GoTime :=
  if t.month = 12 then { t with year := t.year + 1, month := 1 }
  else { t with month := t.month + 1 }

theorem monthIndex_addMonthD (t : GoTime) : monthIndex (addMonthD t) = monthIndex t + 1 := by
  unfold monthIndex addMonthD
  split <;> simp_all <;> omega

/-- Postgres `generate_series(start, stop, interval '1 month')` on
first-of-month dates: emit `start`, `start + 1 month`, ... while the value
is at most `stop`.  On month dates the SQL date comparison agrees with
`monthIndex` order, which is used as the loop guard so the recursion is
well-founded for every input. -/
def genSeriesD (start stop : GoTime) : List GoTime :=
  if monthIndex start ≤ monthIndex stop then start :: genSeriesD (addMonthD start) stop
  else []
termination_by (monthIndex stop + 1 - monthIndex start).toNat
decreasing_by
  rename_i h
  rw [monthIndex_addMonthD]
  omega

theorem genSeriesD_length (a b : GoTime) :
    (genSeriesD a b).length = (monthIndex b + 1 - monthIndex a).toNat := by
  rw [genSeriesD]
  split
  · rw [List.length_cons, genSeriesD_length (addMonthD a) b, monthIndex_addMonthD]
    omega
  · simp only [List.length_nil]
    omega
termination_by (monthIndex b + 1 - monthIndex a).toNat
decreasing_by
  rename_i h
  rw [monthIndex_addMonthD]
  omega

theorem dateLe_refl (a : GoTime) : dateLe a a = true := by
  simp [dateLe, GoTime.before]

theorem dateLe_eq_true_iff {a b : GoTime} (ha : isMonthDate a) (hb : isMonthDate b) :
    dateLe a b = true ↔ monthIndex a ≤ monthIndex b := by
  obtain ⟨ha1, ha2, ha3, ha4, ha5, ha6, ha7⟩ := ha
  obtain ⟨hb1, hb2, hb3, hb4, hb5, hb6, hb7⟩ := hb
  simp only [dateLe, GoTime.before, monthIndex, Bool.not_eq_true', decide_eq_false_iff_not,
    decide_eq_true_eq]
  constructor
  · intro h
    omega
  · intro h
    omega

/-- The domain entity `entity.Subscription` (src/internal/entity): id,
user UUID (kept as its string form), service name, monthly cost, start
month, optional end month. -/
structure Subscription where
  id : Int
  userID : String
  serviceName : String
  cost : Int
  dateFrom : GoTime
  dateTo : Option GoTime
deriving DecidableEq, Repr

/-- `usecase.Period`: inclusive query window bounds. -/
structure Period where
  From : GoTime
  To : GoTime
deriving DecidableEq, Repr

/-- `usecase.SubFilter`: optional user, service name and period predicates
plus pagination. -/
structure SubFilter where
  userID : String
  serviceName : Option String
  period : Option Period
  limit : Int
  offset : Int
deriving DecidableEq, Repr

/-- The error values declared in src/internal/usecase/usecase.go. -/
inductive UCError where
  | invalidPeriod
  | subscriptionNotFound
  | invalidSubscription
  | invalidID
  | invalidPagination
deriving DecidableEq, Repr

/-- Go `strings.TrimSpace`, modelled on the character list: drop leading
and trailing whitespace. -/
def trimSpace (s : String) : String :=
  String.mk (((s.data.dropWhile Char.isWhitespace).reverse.dropWhile
    Char.isWhitespace).reverse)

namespace Usecase

/-- `defaultListLimit` from src/internal/usecase/usecase.go. -/
def defaultListLimit : Int := 50

/-- `maxListLimit` from src/internal/usecase/usecase.go. -/
def maxListLimit : Int := 200

/-- `monthStart` from the use-case layer: truncate a non-zero time to the
first day of its month at UTC; the zero time is returned unchanged. -/
def monthStart (t : GoTime) : GoTime :=
  if t.isZero then t
  else { year := t.year, month := t.month, day := 1, hour := 0, minute := 0, sec := 0, nsec := 0 }

/-- `normalizeFilter` from the use-case layer: validate and canonicalize the
period (month truncation, zero `from` and inverted bounds rejected), then
validate pagination (negative offset rejected, limit defaulted and
clamped). -/
def normalizeFilter (f : SubFilter) : Except UCError SubFilter :=
  let step : Except UCError SubFilter :=
    match f.period with
    | some p =>
      let fromT := monthStart p.From
      let toT := monthStart p.To
      if fromT.isZero then Except.error UCError.invalidPeriod
      else if !toT.isZero && toT.before fromT then Except.error UCError.invalidPeriod
      else Except.ok { f with period := some ⟨fromT, toT⟩ }
    | none => Except.ok f
  match step with
  | Except.error e => Except.error e
  | Except.ok g =>
    if g.offset < 0 then Except.error UCError.invalidPagination
    else
      let limit := if g.limit ≤ 0 then defaultListLimit
        else if g.limit > maxListLimit then maxListLimit else g.limit
      Except.ok { g with limit := limit }

/-- `validateAndNormalize` from the use-case layer: trim the service name,
require it non-empty, require a positive cost, a non-empty user id and a
non-zero start date; truncate the start date, and when the end date is a
non-nil non-zero time, truncate it and require it not before the start. -/
def validateAndNormalize (sub : Subscription) : Except UCError Subscription :=
  let sn := trimSpace sub.serviceName
  if sn = "" then Except.error UCError.invalidSubscription
  else if sub.cost ≤ 0 then Except.error UCError.invalidSubscription
  else if sub.userID = "" then Except.error UCError.invalidSubscription
  else if sub.dateFrom.isZero then Except.error UCError.invalidSubscription
  else
    let sub1 := { sub with serviceName := sn, dateFrom := monthStart sub.dateFrom }
    match sub.dateTo with
    | some dt =>
      if dt.isZero then Except.ok sub1
      else
        let d := monthStart dt
        if d.before sub1.dateFrom then Except.error UCError.invalidPeriod
        else Except.ok { sub1 with dateTo := some d }
    | none => Except.ok sub1

end Usecase

namespace Postgres

/-- `defaultListLimit` from the postgres repository. -/
def defaultListLimit : Int := 50

/-- The temporal overlap test of the sqlc `SumSubscriptionCost` query's
`filtered` CTE: `start_date <= period_to AND (end_date IS NULL OR
end_date >= period_from)`. -/
def overlaps (s : Subscription) (fromD toD : GoTime) : Bool :=
  dateLe s.dateFrom toD &&
    (match s.dateTo with
     | none => true
     | some e => dateLe fromD e)

/-- The optional user/service equality predicates shared by the sqlc
queries (`user_id IS NULL OR user_id = ...`, same for service name). -/
def matchesParams (uid svc : Option String) (s : Subscription) : Bool :=
  (match uid with
   | none => true
   | some u => decide (s.userID = u)) &&
  (match svc with
   | none => true
   | some n => decide (s.serviceName = n))

/-- SQL `GREATEST` on two dates. -/
def greatestD (a b : GoTime) : GoTime := if dateLe a b then b else a

/-- SQL `LEAST` on two dates. -/
def leastD (a b : GoTime) : GoTime := if dateLe a b then a else b

/-- The sqlc `SumSubscriptionCost` query: keep the rows passing the overlap
and user/service predicates, expand each kept row into one copy of its cost
per month in `generate_series(GREATEST(start_date, period_from),
LEAST(COALESCE(end_date, period_to), period_to), interval '1 month')`, and
sum the expanded costs (empty expansion sums to 0). -/
def SumSubscriptionCost (rows : List Subscription) (uid svc : Option String)
    (fromD toD : GoTime) : Int :=
  let filtered := rows.filter fun s => overlaps s fromD toD && matchesParams uid svc s
  (filtered.map fun f =>
    ((genSeriesD (greatestD f.dateFrom fromD) (leastD (f.dateTo.getD toD) toD)).map
      fun _ => f.cost).sum).sum

/-- `CostSubsByFilter` from the postgres repository: reject a missing
period or a zero bound with the invalid-period error, then run the
aggregate query; an empty user id means no user predicate. -/
def CostSubsByFilter (rows : List Subscription) (f : SubFilter) : Except UCError Int :=
  match f.period with
  | none => Except.error UCError.invalidPeriod
  | some p =>
    if p.From.isZero || p.To.isZero then Except.error UCError.invalidPeriod
    else
      let uid := if f.userID = "" then none else some f.userID
      Except.ok (SumSubscriptionCost rows uid f.serviceName p.From p.To)

/-- Listing sort key of the sqlc `ListSubscriptions` query:
`ORDER BY start_date, service_name, id`. -/
def subLE (a b : Subscription) : Bool :=
  if a.dateFrom = b.dateFrom then
    if a.serviceName = b.serviceName then decide (a.id ≤ b.id)
    else decide (a.serviceName < b.serviceName)
  else a.dateFrom.before b.dateFrom

/-- The listing order as a relation. -/
def subRel (a b : Subscription) : Prop := subLE a b = true

instance : DecidableRel subRel := fun a b => inferInstanceAs (Decidable (subLE a b = true))

/-- The sqlc `ListSubscriptions` query: filter by the optional user,
service and period-overlap predicates, order by
`(start_date, service_name, id)`, then apply OFFSET and LIMIT.  `ORDER BY`
is modelled as a sort by the key relation. -/
def ListSubscriptions (rows : List Subscription) (uid svc : Option String)
    (periodFrom periodTo : Option GoTime) (pageLimit pageOffset : Int) : List Subscription :=
  let matched := rows.filter fun s =>
    (match uid with
     | none => true
     | some u => decide (s.userID = u)) &&
    (match svc with
     | none => true
     | some n => decide (s.serviceName = n)) &&
    (match periodFrom with
     | none => true
     | some fd =>
       (match s.dateTo with
        | none => true
        | some e => dateLe fd e) &&
       (match periodTo with
        | none => true
        | some td => dateLe s.dateFrom td))
  (((matched.insertionSort subRel).drop pageOffset.toNat).take pageLimit.toNat)

/-- `ListSubsByFilter` from the postgres repository: default a
non-positive limit to 50, clamp a negative offset to 0, drop empty or zero
filter components, and run the listing query. -/
def ListSubsByFilter (rows : List Subscription) (f : SubFilter) : List Subscription :=
  let limit := if f.limit ≤ 0 then defaultListLimit else f.limit
  let offset := if f.offset < 0 then 0 else f.offset
  let uid := if f.userID = "" then none else some f.userID
  let periodFrom := match f.period with
    | none => none
    | some p => if p.From.isZero then none else some p.From
  let periodTo := match f.period with
    | none => none
    | some p => if p.To.isZero then none else some p.To
  ListSubscriptions rows uid f.serviceName periodFrom periodTo limit offset

end Postgres

namespace Usecase

/-- Use-case `CostSubsByFilter`: normalize the filter, then delegate to the
repository aggregation. -/
def CostSubsByFilter (rows : List Subscription) (f : SubFilter) : Except UCError Int :=
  match normalizeFilter f with
  | Except.error e => Except.error e
  | Except.ok nf => Postgres.CostSubsByFilter rows nf

/-- Use-case `ListSubsByFilter`: normalize the filter, then delegate to the
repository listing. -/
def ListSubsByFilter (rows : List Subscription) (f : SubFilter) :
    Except UCError (List Subscription) :=
  match normalizeFilter f with
  | Except.error e => Except.error e
  | Except.ok nf => Except.ok (Postgres.ListSubsByFilter rows nf)

end Usecase

/-- The repository interface `usecase.SubscriptionRepository`, modelled as
a record of function values (the storage collaborator is opaque to the
use-case layer). -/
structure Repo where
  saveSub : Subscription → Except UCError Subscription
  updateSub : Subscription → Except UCError Unit
  deleteSub : Int → Except UCError Unit
  getSubByID : Int → Except UCError Subscription

/-- A trace entry recording one repository invocation. -/
inductive RepoCall where
  | saveCall (s : Subscription)
  | updateCall (s : Subscription)
  | deleteCall (id : Int)
  | getCall (id : Int)
deriving DecidableEq, Repr

namespace Usecase

/-- Use-case `RegisterSub`: validate/normalize, then save; the trace lists
the repository calls made. -/
def RegisterSub (r : Repo) (sub : Subscription) :
    Except UCError Subscription × List RepoCall :=
  match validateAndNormalize sub with
  | Except.error e => (Except.error e, [])
  | Except.ok ns =>
    match r.saveSub ns with
    | Except.error e => (Except.error e, [RepoCall.saveCall ns])
    | Except.ok created => (Except.ok created, [RepoCall.saveCall ns])

/-- Use-case `UpdateSub`: reject a non-positive id, validate/normalize,
update, then re-fetch the stored copy. -/
def UpdateSub (r : Repo) (sub : Subscription) :
    Except UCError Subscription × List RepoCall :=
  if sub.id ≤ 0 then (Except.error UCError.invalidID, [])
  else
    match validateAndNormalize sub with
    | Except.error e => (Except.error e, [])
    | Except.ok ns =>
      match r.updateSub ns with
      | Except.error e => (Except.error e, [RepoCall.updateCall ns])
      | Except.ok _ => (r.getSubByID ns.id, [RepoCall.updateCall ns, RepoCall.getCall ns.id])

/-- Use-case `DeleteSub`: reject a non-positive id, fetch the existing
record, delete it, and return the previously stored record. -/
def DeleteSub (r : Repo) (id : Int) :
    Except UCError Subscription × List RepoCall :=
  if id ≤ 0 then (Except.error UCError.invalidID, [])
  else
    match r.getSubByID id with
    | Except.error e => (Except.error e, [RepoCall.getCall id])
    | Except.ok existing =>
      match r.deleteSub id with
      | Except.error e => (Except.error e, [RepoCall.getCall id, RepoCall.deleteCall id])
      | Except.ok _ => (Except.ok existing, [RepoCall.getCall id, RepoCall.deleteCall id])

/-- Use-case `GetSubByID`: reject a non-positive id, then fetch. -/
def GetSubByID (r : Repo) (id : Int) :
    Except UCError Subscription × List RepoCall :=
  if id ≤ 0 then (Except.error UCError.invalidID, [])
  else (r.getSubByID id, [RepoCall.getCall id])

end Usecase

/-- The closed-form inclusive month count of spec section 4.2 step 4:
`(to.year - from.year) * 12 + (to.month - from.month) + 1`. -/
def monthsCount (a b : GoTime) : Int := (b.year - a.year) * 12 + (b.month - a.month) + 1

theorem monthsCount_eq (a b : GoTime) : monthsCount a b = monthIndex b - monthIndex a + 1 := by
  unfold monthsCount monthIndex
  ring

/-- The write-time row invariant that the store enforces (migration CHECK
constraints): the start date is a month date, and the end date, when
present, is a month date not before the start. -/
def validSub (s : Subscription) : Bool :=
  decide (isMonthDate s.dateFrom) &&
    (match s.dateTo with
     | none => true
     | some e => decide (isMonthDate e) && dateLe s.dateFrom e)

theorem sum_map_const {α : Type} (c : Int) : ∀ l : List α, (l.map fun _ => c).sum = c * l.length
  | [] => by simp
  | x :: xs => by
    simp only [List.map_cons, List.sum_cons, sum_map_const c xs, List.length_cons]
    push_cast
    ring

theorem inner_sum_eq (c : Int) (a b : GoTime) (hab : monthIndex a ≤ monthIndex b) :
    ((genSeriesD a b).map fun _ => c).sum = c * (monthIndex b - monthIndex a + 1) := by
  rw [sum_map_const, genSeriesD_length]
  congr 1
  omega

theorem validSub_dateFrom {s : Subscription} (hs : validSub s = true) :
    isMonthDate s.dateFrom := by
  unfold validSub at hs
  simp only [Bool.and_eq_true, decide_eq_true_eq] at hs
  exact hs.1

theorem validSub_dateTo {s : Subscription} {e : GoTime} (hs : validSub s = true)
    (he : s.dateTo = some e) : isMonthDate e ∧ dateLe s.dateFrom e = true := by
  unfold validSub at hs
  rw [he] at hs
  simp only [Bool.and_eq_true, decide_eq_true_eq] at hs
  exact hs.2

/-- The effective window of an overlapping, invariant-satisfying row is
non-empty: `GREATEST(start, from) <= LEAST(COALESCE(end, to), to)` in
month-index terms. -/
theorem eff_le (s : Subscription) (fromD toD : GoTime)
    (hf : isMonthDate fromD) (ht : isMonthDate toD)
    (hft : dateLe fromD toD = true)
    (hs : validSub s = true)
    (hov : Postgres.overlaps s fromD toD = true) :
    monthIndex (Postgres.greatestD s.dateFrom fromD)
      ≤ monthIndex (Postgres.leastD (s.dateTo.getD toD) toD) := by
  have hsf : isMonthDate s.dateFrom := validSub_dateFrom hs
  have hft' : monthIndex fromD ≤ monthIndex toD := (dateLe_eq_true_iff hf ht).mp hft
  rcases hdt : s.dateTo with _ | e
  · unfold Postgres.overlaps at hov
    rw [hdt] at hov
    simp only [Bool.and_true] at hov
    have h1 : monthIndex s.dateFrom ≤ monthIndex toD := (dateLe_eq_true_iff hsf ht).mp hov
    simp only [Option.getD_none]
    unfold Postgres.greatestD Postgres.leastD
    rw [dateLe_refl]
    split <;> simp <;> omega
  · obtain ⟨he, hse⟩ := validSub_dateTo hs hdt
    have hse' : monthIndex s.dateFrom ≤ monthIndex e := (dateLe_eq_true_iff hsf he).mp hse
    unfold Postgres.overlaps at hov
    rw [hdt] at hov
    simp only [Bool.and_eq_true] at hov
    have h1 : monthIndex s.dateFrom ≤ monthIndex toD := (dateLe_eq_true_iff hsf ht).mp hov.1
    have h2 : monthIndex fromD ≤ monthIndex e := (dateLe_eq_true_iff hf he).mp hov.2
    simp only [Option.getD_some]
    unfold Postgres.greatestD Postgres.leastD
    split <;> split <;> omega

/-- Per-row expanded contribution: for an overlapping, invariant-satisfying
row the generated cost copies sum to `cost * monthsCount` of the effective
window. -/
theorem row_contribution (s : Subscription) (fromD toD : GoTime)
    (hf : isMonthDate fromD) (ht : isMonthDate toD)
    (hft : dateLe fromD toD = true)
    (hs : validSub s = true)
    (hov : Postgres.overlaps s fromD toD = true) :
    ((genSeriesD (Postgres.greatestD s.dateFrom fromD)
        (Postgres.leastD (s.dateTo.getD toD) toD)).map fun _ => s.cost).sum
      = s.cost * monthsCount (Postgres.greatestD s.dateFrom fromD)
          (Postgres.leastD (s.dateTo.getD toD) toD) := by
  rw [inner_sum_eq _ _ _ (eff_le s fromD toD hf ht hft hs hov), monthsCount_eq]

/-- Workhorse: the sqlc aggregation equals the sum of per-row closed-form
contributions, with non-overlapping rows contributing zero. -/
theorem sumCost_eq_formula (rows : List Subscription) (fromD toD : GoTime)
    (hf : isMonthDate fromD) (ht : isMonthDate toD) (hft : dateLe fromD toD = true)
    (hrows : ∀ s ∈ rows, validSub s = true) :
    Postgres.SumSubscriptionCost rows none none fromD toD =
      (rows.map fun s =>
        if Postgres.overlaps s fromD toD then
          s.cost * monthsCount (Postgres.greatestD s.dateFrom fromD)
            (Postgres.leastD (s.dateTo.getD toD) toD)
        else 0).sum := by
  induction rows with
  | nil => simp [Postgres.SumSubscriptionCost]
  | cons x xs ih =>
    have hx : validSub x = true := hrows x (by simp)
    have hxs : ∀ s ∈ xs, validSub s = true := fun s hsm => hrows s (by simp [hsm])
    have ihx := ih hxs
    unfold Postgres.SumSubscriptionCost at ihx ⊢
    simp only [Postgres.matchesParams, Bool.and_true, List.filter_cons] at ihx ⊢
    by_cases hov : Postgres.overlaps x fromD toD = true
    · rw [if_pos (by rw [hov])]
      simp only [List.map_cons, List.sum_cons, ihx]
      rw [row_contribution x fromD toD hf ht hft hx hov, if_pos hov]
    · rw [if_neg (by simp_all)]
      simp only [List.map_cons, List.sum_cons, ihx]
      rw [if_neg hov]
      omega

def d2025_07 : GoTime := ⟨2025, 7, 1, 0, 0, 0, 0⟩
def d2025_08 : GoTime := ⟨2025, 8, 1, 0, 0, 0, 0⟩
def d2025_09 : GoTime := ⟨2025, 9, 1, 0, 0, 0, 0⟩
def d2025_12 : GoTime := ⟨2025, 12, 1, 0, 0, 0, 0⟩

/-- Claim C1: for a bounded month-truncated period and any collection of
invariant-satisfying subscriptions, the cost aggregation
(`SumSubscriptionCost`, reached through `CostSubsByFilter`) equals the sum
over exactly the rows passing the overlap test of `cost * monthsCount` of
the effective window, rows failing the test contributing zero; and an
empty matching set yields total 0. -/
theorem c1_cost_aggregation_closed_form (rows : List Subscription) (fromD toD : GoTime)
    (hf : isMonthDate fromD) (ht : isMonthDate toD) (hft : dateLe fromD toD = true)
    (hrows : ∀ s ∈ rows, validSub s = true) :
    Postgres.SumSubscriptionCost rows none none fromD toD =
      (rows.map fun s =>
        if Postgres.overlaps s fromD toD then
          s.cost * monthsCount (Postgres.greatestD s.dateFrom fromD)
            (Postgres.leastD (s.dateTo.getD toD) toD)
        else 0).sum ∧
    ((∀ s ∈ rows, Postgres.overlaps s fromD toD = false) →
      Postgres.SumSubscriptionCost rows none none fromD toD = 0) := by
  refine ⟨sumCost_eq_formula rows fromD toD hf ht hft hrows, ?_⟩
  intro hnone
  rw [sumCost_eq_formula rows fromD toD hf ht hft hrows]
  apply List.sum_eq_zero
  intro x hx
  simp only [List.mem_map] at hx
  obtain ⟨s, hsmem, rfl⟩ := hx
  simp [hnone s hsmem]

def c1Sub : Subscription :=
  { id := 1, userID := "u", serviceName := "Skillbox", cost := 100,
    dateFrom := d2025_07, dateTo := some d2025_12 }

/-- Witness for C1 at the spec's boundary scenario (subscription
2025-07..2025-12, period 2025-08..2025-09). -/
theorem c1_cost_aggregation_closed_form_witness :
    Postgres.SumSubscriptionCost [c1Sub] none none d2025_08 d2025_09 =
      ([c1Sub].map fun s =>
        if Postgres.overlaps s d2025_08 d2025_09 then
          s.cost * monthsCount (Postgres.greatestD s.dateFrom d2025_08)
            (Postgres.leastD (s.dateTo.getD d2025_09) d2025_09)
        else 0).sum ∧
    ((∀ s ∈ [c1Sub], Postgres.overlaps s d2025_08 d2025_09 = false) →
      Postgres.SumSubscriptionCost [c1Sub] none none d2025_08 d2025_09 = 0) :=
  c1_cost_aggregation_closed_form [c1Sub] d2025_08 d2025_09
    (by decide) (by decide) (by decide) (by decide)

theorem isMonthDate_greatestD {a b : GoTime} (ha : isMonthDate a) (hb : isMonthDate b) :
    isMonthDate (Postgres.greatestD a b) := by
  unfold Postgres.greatestD
  split <;> assumption

theorem isMonthDate_leastD {a b : GoTime} (ha : isMonthDate a) (hb : isMonthDate b) :
    isMonthDate (Postgres.leastD a b) := by
  unfold Postgres.leastD
  split <;> assumption

/-- Claim C4: for a bounded period, a subscription ending exactly at the
period's upper bound contributes the same as the open-ended variant of the
same subscription. -/
theorem c4_open_end_equivalence (s : Subscription) (fromD toD : GoTime)
    (hft : dateLe fromD toD = true) (hend : s.dateTo = some toD) :
    Postgres.SumSubscriptionCost [s] none none fromD toD =
      Postgres.SumSubscriptionCost [{ s with dateTo := none }] none none fromD toD := by
  unfold Postgres.SumSubscriptionCost Postgres.overlaps Postgres.matchesParams
  simp only [hend, List.filter_cons, List.filter_nil, Option.getD_some, Option.getD_none,
    Bool.and_true, hft]
  cases hsf : dateLe s.dateFrom toD <;> simp [hsf, hend, Postgres.leastD, dateLe_refl]

def c4Sub : Subscription :=
  { id := 3, userID := "u", serviceName := "Pro", cost := 500,
    dateFrom := d2025_07, dateTo := some d2025_09 }

/-- Witness for C4 at a concrete period 2025-08..2025-09. -/
theorem c4_open_end_equivalence_witness :
    Postgres.SumSubscriptionCost [c4Sub] none none d2025_08 d2025_09 =
      Postgres.SumSubscriptionCost [{ c4Sub with dateTo := none }] none none d2025_08 d2025_09 :=
  c4_open_end_equivalence c4Sub d2025_08 d2025_09 (by decide) rfl

theorem isZero_eq_false_iff (t : GoTime) : t.isZero = false ↔ t ≠ zeroTime := by
  simp [GoTime.isZero]

theorem isZero_eq_true_iff (t : GoTime) : t.isZero = true ↔ t = zeroTime := by
  simp [GoTime.isZero]

/-- A filter period that passes `normalizeFilter`'s own period checks:
absent, or month-truncated `from` non-zero with truncated `to` either zero
or not before the truncated `from`. -/
def periodOK (po : Option Period) : Prop :=
  match po with
  | none => True
  | some p =>
    Usecase.monthStart p.From ≠ zeroTime ∧
      (Usecase.monthStart p.To = zeroTime ∨
        (Usecase.monthStart p.To).before (Usecase.monthStart p.From) = false)

instance : (po : Option Period) → Decidable (periodOK po)
  | none => Decidable.isTrue trivial
  | some p =>
    inferInstanceAs (Decidable (Usecase.monthStart p.From ≠ zeroTime ∧
      (Usecase.monthStart p.To = zeroTime ∨
        (Usecase.monthStart p.To).before (Usecase.monthStart p.From) = false)))

/-- Claim C6: for a filter whose period (if any) is valid, a negative
offset fails with the invalid-pagination error, and otherwise
normalization succeeds with the offset unchanged and the limit defaulted
to 50 when non-positive, clamped to 200 when above 200, and unchanged
otherwise — never an error for a large limit. -/
theorem c6_pagination_normalization (f : SubFilter) (hp : periodOK f.period) :
    (f.offset < 0 → Usecase.normalizeFilter f = Except.error UCError.invalidPagination) ∧
    (0 ≤ f.offset → ∃ g, Usecase.normalizeFilter f = Except.ok g ∧
      g.offset = f.offset ∧
      g.limit = (if f.limit ≤ 0 then 50 else if 200 < f.limit then 200 else f.limit)) := by
  rcases hfp : f.period with _ | p
  · constructor
    · intro hoff
      simp [Usecase.normalizeFilter, hfp, hoff]
    · intro hoff
      have hoff' : ¬ f.offset < 0 := by omega
      simp only [Usecase.normalizeFilter, hfp, hoff', if_false]
      refine ⟨_, rfl, by simp, by simp [Usecase.defaultListLimit, Usecase.maxListLimit]⟩
  · rw [hfp] at hp
    obtain ⟨h1, h2⟩ := hp
    have h1' : (Usecase.monthStart p.From).isZero = false := (isZero_eq_false_iff _).mpr h1
    have h2' : (!(Usecase.monthStart p.To).isZero &&
        (Usecase.monthStart p.To).before (Usecase.monthStart p.From)) = false := by
      rcases h2 with h2 | h2
      · simp [(isZero_eq_true_iff _).mpr h2]
      · simp [h2]
    constructor
    · intro hoff
      simp [Usecase.normalizeFilter, hfp, h1', h2', hoff]
    · intro hoff
      have hoff' : ¬ f.offset < 0 := by omega
      simp only [Usecase.normalizeFilter, hfp, h1', h2', Bool.false_eq_true, if_false, hoff']
      refine ⟨_, rfl, by simp, by simp [Usecase.defaultListLimit, Usecase.maxListLimit]⟩

def c6Filter : SubFilter :=
  { userID := "", serviceName := none, period := none, limit := 500, offset := 3 }

/-- Witness for C6: no period, limit 500 above the ceiling, offset 3. -/
theorem c6_pagination_normalization_witness :
    ∃ g, Usecase.normalizeFilter c6Filter = Except.ok g ∧
      g.offset = c6Filter.offset ∧
      g.limit = (if c6Filter.limit ≤ 0 then 50
        else if 200 < c6Filter.limit then 200 else c6Filter.limit) :=
  (c6_pagination_normalization c6Filter (by decide)).2 (by decide)

def c5Filter : SubFilter :=
  { userID := "", serviceName := none, period := some ⟨d2025_07, d2025_08⟩,
    limit := 10, offset := -1 }

/-- Counterexample to C5 as stated: a filter with a perfectly valid period
but a negative offset is not returned normalized; `normalizeFilter` fails
with the invalid-pagination error instead. -/
theorem c5_counterexample :
    Usecase.monthStart d2025_07 ≠ zeroTime ∧
    (Usecase.monthStart d2025_08).before (Usecase.monthStart d2025_07) = false ∧
    Usecase.normalizeFilter c5Filter = Except.error UCError.invalidPagination :=
  ⟨by decide, by decide, rfl⟩

/-- Claim C5 (amended): for every filter with a period, `normalizeFilter`
fails with the invalid-period error when the month-truncated `from` is
zero, fails likewise when both truncated bounds are non-zero and the
truncated `to` is before the truncated `from`, and otherwise — provided
the offset is non-negative — succeeds with the period replaced by exactly
the truncated bounds. -/
theorem c5_period_normalization (f : SubFilter) (p : Period) (hfp : f.period = some p) :
    (Usecase.monthStart p.From = zeroTime →
      Usecase.normalizeFilter f = Except.error UCError.invalidPeriod) ∧
    (Usecase.monthStart p.From ≠ zeroTime →
      Usecase.monthStart p.To ≠ zeroTime →
      (Usecase.monthStart p.To).before (Usecase.monthStart p.From) = true →
      Usecase.normalizeFilter f = Except.error UCError.invalidPeriod) ∧
    (Usecase.monthStart p.From ≠ zeroTime →
      (Usecase.monthStart p.To = zeroTime ∨
        (Usecase.monthStart p.To).before (Usecase.monthStart p.From) = false) →
      0 ≤ f.offset →
      ∃ g, Usecase.normalizeFilter f = Except.ok g ∧
        g.period = some ⟨Usecase.monthStart p.From, Usecase.monthStart p.To⟩) := by
  refine ⟨?_, ?_, ?_⟩
  · intro h
    simp [Usecase.normalizeFilter, hfp, (isZero_eq_true_iff _).mpr h]
  · intro h1 h2 h3
    simp [Usecase.normalizeFilter, hfp, (isZero_eq_false_iff _).mpr h1,
      (isZero_eq_false_iff _).mpr h2, h3]
  · intro h1 h2 hoff
    have h1' : (Usecase.monthStart p.From).isZero = false := (isZero_eq_false_iff _).mpr h1
    have h2' : (!(Usecase.monthStart p.To).isZero &&
        (Usecase.monthStart p.To).before (Usecase.monthStart p.From)) = false := by
      rcases h2 with h2 | h2
      · simp [(isZero_eq_true_iff _).mpr h2]
      · simp [h2]
    have hoff' : ¬ f.offset < 0 := by omega
    simp only [Usecase.normalizeFilter, hfp, h1', h2', Bool.false_eq_true, if_false, hoff']
    exact ⟨_, rfl, by simp⟩

def c5GoodFilter : SubFilter :=
  { userID := "", serviceName := none,
    period := some ⟨⟨2025, 7, 20, 5, 0, 0, 0⟩, ⟨2025, 8, 3, 0, 0, 0, 0⟩⟩,
    limit := 0, offset := 0 }

/-- Witness for C5 (amended) on a filter with mid-month period bounds. -/
theorem c5_period_normalization_witness :
    ∃ g, Usecase.normalizeFilter c5GoodFilter = Except.ok g ∧
      g.period = some ⟨Usecase.monthStart ⟨2025, 7, 20, 5, 0, 0, 0⟩,
        Usecase.monthStart ⟨2025, 8, 3, 0, 0, 0, 0⟩⟩ :=
  (c5_period_normalization c5GoodFilter _ rfl).2.2 (by decide) (by decide) (by decide)

def c2Filter : SubFilter :=
  { userID := "", serviceName := none, period := none, limit := 0, offset := -1 }

/-- Counterexample to C2 as stated: with the period absent but a negative
offset, the cost entry point fails with the invalid-pagination error, not
the invalid-period error the biconditional demands. -/
theorem c2_counterexample :
    c2Filter.period = none ∧
    Usecase.CostSubsByFilter [] c2Filter = Except.error UCError.invalidPagination ∧
    Usecase.CostSubsByFilter [] c2Filter ≠ Except.error UCError.invalidPeriod := by
  refine ⟨rfl, rfl, ?_⟩
  intro h
  rw [show Usecase.CostSubsByFilter [] c2Filter = Except.error UCError.invalidPagination
    from rfl] at h
  exact absurd (Except.error.inj h) (by decide)


/-- The condition under which the use-case cost entry point fails with the
invalid-period error (amended C2): a present period fails its own checks
(zero truncated `from`, or non-zero truncated bounds with `to` before
`from`), or pagination passes (offset non-negative) and the repository
precondition rejects an absent period or a zero truncated `to`. -/
def costInvalidPeriodCond (f : SubFilter) : Prop :=
  match f.period with
  | none => 0 ≤ f.offset
  | some p =>
    (Usecase.monthStart p.From).isZero = true ∨
    ((Usecase.monthStart p.From).isZero = false ∧
      (Usecase.monthStart p.To).isZero = false ∧
      (Usecase.monthStart p.To).before (Usecase.monthStart p.From) = true) ∨
    ((Usecase.monthStart p.From).isZero = false ∧
      (Usecase.monthStart p.To).isZero = true ∧
      0 ≤ f.offset)

/-- Claim C2 (amended): the use-case `CostSubsByFilter` fails with the
invalid-period error exactly under `costInvalidPeriodCond`; in particular
a period with both truncated bounds non-zero and `to` not before `from`
never raises the invalid-period error, while a missing period or a zero
truncated `to` bound raises it only when the negative-offset check does
not fire first. -/
theorem c2_invalid_period_iff (rows : List Subscription) (f : SubFilter) :
    Usecase.CostSubsByFilter rows f = Except.error UCError.invalidPeriod ↔
      costInvalidPeriodCond f := by
  unfold Usecase.CostSubsByFilter costInvalidPeriodCond
  rcases hfp : f.period with _ | p
  · by_cases hoff : f.offset < 0 <;>
      simp [Usecase.normalizeFilter, hfp, hoff, Postgres.CostSubsByFilter] <;> omega
  · cases hF : (Usecase.monthStart p.From).isZero
    · cases hT : (Usecase.monthStart p.To).isZero
      · cases hB : (Usecase.monthStart p.To).before (Usecase.monthStart p.From)
        · by_cases hoff : f.offset < 0 <;>
            simp [Usecase.normalizeFilter, hfp, hF, hT, hB, hoff,
              Postgres.CostSubsByFilter] <;>
            omega
        · simp [Usecase.normalizeFilter, hfp, hF, hT, hB]
      · by_cases hoff : f.offset < 0 <;>
          simp [Usecase.normalizeFilter, hfp, hF, hT, hoff, Postgres.CostSubsByFilter] <;>
          omega
    · simp [Usecase.normalizeFilter, hfp, hF]

def c7FilterA : SubFilter :=
  { userID := "", serviceName := none, period := some ⟨d2025_07, d2025_08⟩,
    limit := 10, offset := 0 }

/-- Counterexample to C7 as stated: two raw filters differing only in the
offset field (0 versus -1) give different outcomes of the cost entry
point, because a negative offset is rejected by normalization. -/
theorem c7_counterexample :
    ({ c7FilterA with offset := -1 } : SubFilter).limit = c7FilterA.limit ∧
    Usecase.CostSubsByFilter [] c7FilterA = Except.ok 0 ∧
    Usecase.CostSubsByFilter [] { c7FilterA with offset := -1 } =
      Except.error UCError.invalidPagination :=
  ⟨rfl, rfl, rfl⟩

/-- Claim C7 (amended): for fixed data, the cost entry point returns the
same integer-or-error outcome for any two raw filters that differ only in
their limit and offset fields, provided both offsets are non-negative; a
negative offset instead fails with the invalid-pagination error. -/
theorem c7_pagination_independence (rows : List Subscription) (f : SubFilter)
    (l1 o1 l2 o2 : Int) (h1 : 0 ≤ o1) (h2 : 0 ≤ o2) :
    Usecase.CostSubsByFilter rows { f with limit := l1, offset := o1 } =
      Usecase.CostSubsByFilter rows { f with limit := l2, offset := o2 } := by
  have h1' : ¬ o1 < 0 := by omega
  have h2' : ¬ o2 < 0 := by omega
  unfold Usecase.CostSubsByFilter
  rcases hfp : f.period with _ | p
  · simp [Usecase.normalizeFilter, hfp, h1', h2', Postgres.CostSubsByFilter]
  · cases hF : (Usecase.monthStart p.From).isZero
    · cases hC : (!(Usecase.monthStart p.To).isZero &&
          (Usecase.monthStart p.To).before (Usecase.monthStart p.From))
      · simp [Usecase.normalizeFilter, hfp, hF, hC, h1', h2', Postgres.CostSubsByFilter]
      · simp [Usecase.normalizeFilter, hfp, hF, hC]
    · simp [Usecase.normalizeFilter, hfp, hF]

/-- Witness for C7 (amended): limits 1 and 99, offsets 0 and 5. -/
theorem c7_pagination_independence_witness :
    Usecase.CostSubsByFilter [] { c7FilterA with limit := 1, offset := 0 } =
      Usecase.CostSubsByFilter [] { c7FilterA with limit := 99, offset := 5 } :=
  c7_pagination_independence [] c7FilterA 1 0 99 5 (by decide) (by decide)

theorem before_irrefl (a : GoTime) : GoTime.before a a = false := by
  simp [GoTime.before]

theorem before_trans {a b c : GoTime} (h1 : GoTime.before a b = true)
    (h2 : GoTime.before b c = true) : GoTime.before a c = true := by
  rcases a with ⟨y1, m1, d1, h1', n1, s1, x1⟩
  rcases b with ⟨y2, m2, d2, h2', n2, s2, x2⟩
  rcases c with ⟨y3, m3, d3, h3', n3, s3, x3⟩
  simp only [GoTime.before, decide_eq_true_eq] at h1 h2 ⊢
  omega

theorem before_total_of_ne {a b : GoTime} (h : a ≠ b) :
    GoTime.before a b = true ∨ GoTime.before b a = true := by
  rcases a with ⟨y1, m1, d1, h1, n1, s1, x1⟩
  rcases b with ⟨y2, m2, d2, h2, n2, s2, x2⟩
  simp only [ne_eq, GoTime.mk.injEq] at h
  simp only [GoTime.before, decide_eq_true_eq]
  omega

theorem subLE_total (a b : Subscription) :
    Postgres.subLE a b = true ∨ Postgres.subLE b a = true := by
  unfold Postgres.subLE
  by_cases h1 : a.dateFrom = b.dateFrom
  · rw [if_pos h1, if_pos h1.symm]
    by_cases h2 : a.serviceName = b.serviceName
    · rw [if_pos h2, if_pos h2.symm]
      simp only [decide_eq_true_eq]
      omega
    · rw [if_neg h2, if_neg (Ne.symm h2)]
      simp only [decide_eq_true_eq]
      exact lt_or_gt_of_ne h2
  · rw [if_neg h1, if_neg (Ne.symm h1)]
    exact before_total_of_ne h1

theorem subLE_trans {a b c : Subscription} (h1 : Postgres.subLE a b = true)
    (h2 : Postgres.subLE b c = true) : Postgres.subLE a c = true := by
  unfold Postgres.subLE at h1 h2 ⊢
  by_cases d1 : a.dateFrom = b.dateFrom <;> by_cases d2 : b.dateFrom = c.dateFrom
  · have d3 : a.dateFrom = c.dateFrom := d1.trans d2
    rw [if_pos d1] at h1
    rw [if_pos d2] at h2
    rw [if_pos d3]
    by_cases s1 : a.serviceName = b.serviceName <;> by_cases s2 : b.serviceName = c.serviceName
    · have s3 : a.serviceName = c.serviceName := s1.trans s2
      rw [if_pos s1] at h1
      rw [if_pos s2] at h2
      rw [if_pos s3]
      simp only [decide_eq_true_eq] at h1 h2 ⊢
      omega
    · have s3 : a.serviceName ≠ c.serviceName := by
        rw [s1]
        exact s2
      rw [if_neg s2] at h2
      rw [if_neg s3, s1]
      exact h2
    · have s3 : a.serviceName ≠ c.serviceName := fun h => s1 (h.trans s2.symm)
      rw [if_neg s1] at h1
      rw [if_neg s3, ← s2]
      exact h1
    · rw [if_neg s1] at h1
      rw [if_neg s2] at h2
      simp only [decide_eq_true_eq] at h1 h2
      have hlt : a.serviceName < c.serviceName := lt_trans h1 h2
      rw [if_neg (ne_of_lt hlt)]
      simp only [decide_eq_true_eq]
      exact hlt
  · rw [if_neg d2] at h2
    have d3 : a.dateFrom ≠ c.dateFrom := by
      rw [d1]
      exact d2
    rw [if_neg d3, d1]
    exact h2
  · rw [if_neg d1] at h1
    have d3 : a.dateFrom ≠ c.dateFrom := fun h => d1 (h.trans d2.symm)
    rw [if_neg d3, ← d2]
    exact h1
  · rw [if_neg d1] at h1
    rw [if_neg d2] at h2
    have hb : GoTime.before a.dateFrom c.dateFrom = true := before_trans h1 h2
    have d3 : a.dateFrom ≠ c.dateFrom := by
      intro h
      rw [h, before_irrefl] at hb
      exact absurd hb (by simp)
    rw [if_neg d3]
    exact hb

instance : IsTotal Subscription Postgres.subRel := ⟨fun a b => subLE_total a b⟩

instance : IsTrans Subscription Postgres.subRel := ⟨fun _ _ _ => subLE_trans⟩

/-- Claim C8: whenever the listing operation succeeds, the returned
sequence is sorted by dateFrom ascending, then serviceName ascending, then
id ascending: any two elements in sequence order stand in the `subRel`
lexicographic order. -/
theorem c8_listing_sorted (rows : List Subscription) (f : SubFilter)
    (res : List Subscription) (h : Usecase.ListSubsByFilter rows f = Except.ok res) :
    List.Pairwise Postgres.subRel res := by
  unfold Usecase.ListSubsByFilter at h
  cases hn : Usecase.normalizeFilter f with
  | error e =>
    rw [hn] at h
    exact absurd h (by simp)
  | ok nf =>
    rw [hn] at h
    have hres : res = Postgres.ListSubsByFilter rows nf := (Except.ok.inj h).symm
    subst hres
    unfold Postgres.ListSubsByFilter Postgres.ListSubscriptions
    exact List.Pairwise.sublist ((List.take_sublist _ _).trans (List.drop_sublist _ _))
      (List.sorted_insertionSort Postgres.subRel _)

def c8RowA : Subscription :=
  { id := 2, userID := "u", serviceName := "B", cost := 1, dateFrom := d2025_08, dateTo := none }

def c8RowB : Subscription :=
  { id := 1, userID := "u", serviceName := "A", cost := 2, dateFrom := d2025_07, dateTo := none }

def c8Filter : SubFilter :=
  { userID := "", serviceName := none, period := none, limit := 0, offset := 0 }

/-- Witness for C8: two rows supplied out of order come back sorted. -/
theorem c8_listing_sorted_witness : List.Pairwise Postgres.subRel [c8RowB, c8RowA] :=
  c8_listing_sorted [c8RowA, c8RowB] c8Filter [c8RowB, c8RowA] rfl

/-- A concrete repository whose operations always succeed trivially. -/
def trivialRepo : Repo :=
  { saveSub := fun s => Except.ok s,
    updateSub := fun _ => Except.ok (),
    deleteSub := fun _ => Except.ok (),
    getSubByID := fun _ => Except.error UCError.subscriptionNotFound }

def c9Bad : Subscription :=
  { id := 0, userID := "u2", serviceName := "Netflix", cost := 499,
    dateFrom := ⟨2025, 7, 15, 10, 0, 0, 0⟩, dateTo := some zeroTime }

def c9Saved : Subscription :=
  { id := 0, userID := "u2", serviceName := "Netflix", cost := 499,
    dateFrom := d2025_07, dateTo := some zeroTime }

/-- Evaluation exhibiting the C9 defect: a registration request whose
`DateTo` is a non-nil pointer to the zero time is accepted by
`validateAndNormalize` (the `DateTo != nil && !DateTo.IsZero()` guard
skips both the truncation and the end-before-start check) and handed to
the store with an end date that is present yet strictly before the start
date — violating the invariant the migration's CHECK constraints declare
for stored rows. -/
theorem c9_zero_dateTo_accepted :
    Usecase.RegisterSub trivialRepo c9Bad = (Except.ok c9Saved, [RepoCall.saveCall c9Saved]) ∧
    c9Saved.dateTo = some zeroTime ∧
    GoTime.before zeroTime c9Saved.dateFrom = true :=
  ⟨rfl, rfl, by decide⟩

def c10Bad : Subscription :=
  { id := 1, userID := "u1", serviceName := " ", cost := 1,
    dateFrom := d2025_07, dateTo := none }

/-- Counterexample to C10 as stated: `UpdateSub` with a positive id but an
invalid subscription (whitespace-only service name) returns without any
repository call, so a positive id does not guarantee the repository is
consulted. -/
theorem c10_counterexample :
    0 < c10Bad.id ∧
    Usecase.UpdateSub trivialRepo c10Bad = (Except.error UCError.invalidSubscription, []) :=
  ⟨by decide, rfl⟩

/-- Claim C10 (amended): for id <= 0, `GetSubByID`, `DeleteSub` and
`UpdateSub` fail with the invalid-id error making no repository call; for
id > 0, `GetSubByID` and `DeleteSub` always consult the repository, and
`UpdateSub` consults it whenever validation succeeds. -/
theorem c10_id_gate (r : Repo) (id : Int) (sub : Subscription) :
    (id ≤ 0 → Usecase.GetSubByID r id = (Except.error UCError.invalidID, []) ∧
      Usecase.DeleteSub r id = (Except.error UCError.invalidID, [])) ∧
    (sub.id ≤ 0 → Usecase.UpdateSub r sub = (Except.error UCError.invalidID, [])) ∧
    (0 < id → (Usecase.GetSubByID r id).2 ≠ [] ∧ (Usecase.DeleteSub r id).2 ≠ []) ∧
    (0 < sub.id → ∀ ns, Usecase.validateAndNormalize sub = Except.ok ns →
      (Usecase.UpdateSub r sub).2 ≠ []) := by
  refine ⟨?_, ?_, ?_, ?_⟩
  · intro hle
    constructor
    · simp [Usecase.GetSubByID, hle]
    · simp [Usecase.DeleteSub, hle]
  · intro hle
    simp [Usecase.UpdateSub, hle]
  · intro hpos
    have hgt : ¬ id ≤ 0 := by omega
    constructor
    · simp [Usecase.GetSubByID, hgt]
    · simp only [Usecase.DeleteSub, if_neg hgt]
      cases r.getSubByID id with
      | error e => simp
      | ok existing =>
        simp only []
        cases r.deleteSub id <;> simp
  · intro hpos ns hval
    have hgt : ¬ sub.id ≤ 0 := by omega
    simp only [Usecase.UpdateSub, if_neg hgt, hval]
    cases r.updateSub ns <;> simp

def c10GoodSub : Subscription :=
  { id := 7, userID := "u1", serviceName := "Pro", cost := 500,
    dateFrom := d2025_08, dateTo := none }

/-- Witness for C10 (amended) at id 7 (and id -3 for the gate) against the
trivial repository. -/
theorem c10_id_gate_witness :
    ((-3 : Int) ≤ 0 → Usecase.GetSubByID trivialRepo (-3) = (Except.error UCError.invalidID, []) ∧
      Usecase.DeleteSub trivialRepo (-3) = (Except.error UCError.invalidID, [])) ∧
    (c10GoodSub.id ≤ 0 →
      Usecase.UpdateSub trivialRepo c10GoodSub = (Except.error UCError.invalidID, [])) ∧
    ((0 : Int) < -3 → (Usecase.GetSubByID trivialRepo (-3)).2 ≠ [] ∧
      (Usecase.DeleteSub trivialRepo (-3)).2 ≠ []) ∧
    (0 < c10GoodSub.id → ∀ ns, Usecase.validateAndNormalize c10GoodSub = Except.ok ns →
      (Usecase.UpdateSub trivialRepo c10GoodSub).2 ≠ []) :=
  c10_id_gate trivialRepo (-3) c10GoodSub

namespace PostgresAlt

/-- `CostSubsByFilter` of the alternative hand-rolled `SubRepository` (the
second document embedded in
src/internal/repository/subscription/postgres/subscription_test.go,
lines 780-845).  The built SQL keeps rows satisfying `start_date <=
period.to AND (end_date IS NULL OR end_date >= period.from)` whenever a
period is present, plus the optional user (`f.UserID != nilUUID`) and
service equality predicates.  The Go loop then clamps the window per row
(`from = *startDate` when `startDate.After(from)`; `to = *endDate` when
`endDate.Before(to)`), and, guarded by `!from.After(to)`, accumulates
`cost * ((to.Year-from.Year)*12 + int(to.Month-from.Month) + 1)`; with no
period it sums the raw costs.  `start_date` is NOT NULL in the schema, so
the scanned start date is always present. -/
def CostSubsByFilter (rows : List Subscription) (f : SubFilter) : Int :=
  ((rows.filter fun s =>
      (match f.period with
       | none => true
       | some p =>
         dateLe s.dateFrom p.To &&
           (match s.dateTo with
            | none => true
            | some e => dateLe p.From e)) &&
      ((if f.userID = "" then true else decide (s.userID = f.userID)) &&
        (match f.serviceName with
         | none => true
         | some n => decide (s.serviceName = n)))).map fun s =>
    match f.period with
    | some p =>
      let fromE := if GoTime.before p.From s.dateFrom then s.dateFrom else p.From
      let toE :=
        match s.dateTo with
        | some e => if GoTime.before e p.To then e else p.To
        | none => p.To
      if GoTime.before toE fromE then 0
      else s.cost * ((toE.year - fromE.year) * 12 + (toE.month - fromE.month) + 1)
    | none => s.cost).sum

end PostgresAlt

theorem before_asymm {a b : GoTime} (h : GoTime.before a b = true) :
    GoTime.before b a = false := by
  rcases a with ⟨y1, m1, d1, h1, n1, s1, x1⟩
  rcases b with ⟨y2, m2, d2, h2, n2, s2, x2⟩
  simp only [GoTime.before, decide_eq_true_eq, decide_eq_false_iff_not] at h ⊢
  omega

theorem eq_of_not_before {a b : GoTime} (h1 : GoTime.before a b = false)
    (h2 : GoTime.before b a = false) : a = b := by
  by_contra hne
  rcases before_total_of_ne hne with h | h
  · rw [h] at h1
    simp at h1
  · rw [h] at h2
    simp at h2

/-- SQL `GREATEST(a, b)` agrees with the Go clamp `if b.After(a)·…`. -/
theorem greatestD_eq_ite (a b : GoTime) :
    Postgres.greatestD a b = if GoTime.before b a then a else b := by
  unfold Postgres.greatestD dateLe
  cases h : GoTime.before b a <;> simp [h]

/-- SQL `LEAST(a, b)` agrees with the Go clamp `if a.Before(b)·…`. -/
theorem leastD_eq_ite (a b : GoTime) :
    Postgres.leastD a b = if GoTime.before a b then a else b := by
  unfold Postgres.leastD dateLe
  cases h1 : GoTime.before a b
  · cases h2 : GoTime.before b a
    · have hab : a = b := eq_of_not_before h1 h2
      subst hab
      simp
    · simp [h2]
  · simp [before_asymm h1]

theorem filter_map_sum_congr {α : Type} (p q : α → Bool) (f g : α → Int)
    (l : List α) (hpq : ∀ a ∈ l, p a = q a) (hfg : ∀ a ∈ l, p a = true → f a = g a) :
    ((l.filter p).map f).sum = ((l.filter q).map g).sum := by
  induction l with
  | nil => simp
  | cons x xs ih =>
    have hx : p x = q x := hpq x (by simp)
    have ih' := ih (fun a ha => hpq a (by simp [ha])) (fun a ha h => hfg a (by simp [ha]) h)
    simp only [List.filter_cons]
    cases hp : p x
    · rw [if_neg (by simp [hp]), if_neg (by simp [← hx, hp])]
      exact ih'
    · rw [if_pos (by simp [hp]), if_pos (by simp [← hx, hp])]
      simp only [List.map_cons, List.sum_cons]
      rw [hfg x (by simp) hp, ih']

/-- The sqlc `filtered` CTE predicate and the alternative repository's SQL
predicate coincide row by row (the empty user id means no user
predicate on both sides). -/
theorem altCond_eq (u : String) (svc : Option String) (fromD toD : GoTime)
    (x : Subscription) :
    (Postgres.overlaps x fromD toD &&
        Postgres.matchesParams (if u = "" then none else some u) svc x) =
      ((dateLe x.dateFrom toD &&
          (match x.dateTo with
           | none => true
           | some e => dateLe fromD e)) &&
        ((if u = "" then true else decide (x.userID = u)) &&
          (match svc with
           | none => true
           | some n => decide (x.serviceName = n)))) := by
  unfold Postgres.overlaps Postgres.matchesParams
  by_cases hu : u = "" <;> simp [hu]

/-- Workhorse for C3: on invariant-satisfying rows and a month-truncated
bounded period, the sqlc `generate_series` aggregation and the alternative
repository's closed-form aggregation agree, for any user/service
predicates and pagination fields. -/
theorem sumCost_eq_alt (rows : List Subscription) (u : String) (svc : Option String)
    (fromD toD : GoTime) (l o : Int)
    (hf : isMonthDate fromD) (ht : isMonthDate toD) (hft : dateLe fromD toD = true)
    (hrows : ∀ s ∈ rows, validSub s = true) :
    Postgres.SumSubscriptionCost rows (if u = "" then none else some u) svc fromD toD =
      PostgresAlt.CostSubsByFilter rows
        { userID := u, serviceName := svc, period := some ⟨fromD, toD⟩,
          limit := l, offset := o } := by
  unfold Postgres.SumSubscriptionCost PostgresAlt.CostSubsByFilter
  apply filter_map_sum_congr
  · intro a _
    exact altCond_eq u svc fromD toD a
  · intro a ha hpa
    have hov : Postgres.overlaps a fromD toD = true := by
      simp only [Bool.and_eq_true] at hpa
      exact hpa.1
    have hs : validSub a = true := hrows a ha
    show ((genSeriesD (Postgres.greatestD a.dateFrom fromD)
        (Postgres.leastD (a.dateTo.getD toD) toD)).map fun _ => a.cost).sum =
      (if GoTime.before
          (match a.dateTo with
           | some e => if GoTime.before e toD then e else toD
           | none => toD)
          (if GoTime.before fromD a.dateFrom then a.dateFrom else fromD) then 0
       else a.cost *
        (((match a.dateTo with
           | some e => if GoTime.before e toD then e else toD
           | none => toD).year -
          (if GoTime.before fromD a.dateFrom then a.dateFrom else fromD).year) * 12 +
         ((match a.dateTo with
           | some e => if GoTime.before e toD then e else toD
           | none => toD).month -
          (if GoTime.before fromD a.dateFrom then a.dateFrom else fromD).month) + 1))
    have hGa : (if GoTime.before fromD a.dateFrom then a.dateFrom else fromD) =
        Postgres.greatestD a.dateFrom fromD := (greatestD_eq_ite a.dateFrom fromD).symm
    have hLa : (match a.dateTo with
        | some e => if GoTime.before e toD then e else toD
        | none => toD) = Postgres.leastD (a.dateTo.getD toD) toD := by
      rcases hdt : a.dateTo with _ | e
      · simp [Postgres.leastD, dateLe_refl]
      · simp [leastD_eq_ite]
    rw [hGa, hLa]
    have hsf : isMonthDate a.dateFrom := validSub_dateFrom hs
    have hle : dateLe (Postgres.greatestD a.dateFrom fromD)
        (Postgres.leastD (a.dateTo.getD toD) toD) = true := by
      have hg : isMonthDate (Postgres.greatestD a.dateFrom fromD) :=
        isMonthDate_greatestD hsf hf
      have hl : isMonthDate (Postgres.leastD (a.dateTo.getD toD) toD) := by
        rcases hdt : a.dateTo with _ | e
        · simpa [hdt] using isMonthDate_leastD ht ht
        · have he := (validSub_dateTo hs hdt).1
          simpa [hdt] using isMonthDate_leastD he ht
      exact (dateLe_eq_true_iff hg hl).mpr (eff_le a fromD toD hf ht hft hs hov)
    have hguard : GoTime.before (Postgres.leastD (a.dateTo.getD toD) toD)
        (Postgres.greatestD a.dateFrom fromD) = false := by
      simpa [dateLe] using hle
    rw [row_contribution a fromD toD hf ht hft hs hov, hguard]
    simp [monthsCount]

/-- Claim C3: iterating month-by-month from `a` to `b` inclusive (the
`generate_series` approach) produces exactly
`(b.year - a.year) * 12 + (b.month - a.month) + 1` values; consequently,
for every month-truncated bounded period, every store contents satisfying
the CHECK invariants, and any user/service predicates and pagination
fields, the sqlc `generate_series` aggregation computes the same total as
the closed-form month-count aggregation of the alternative repository
implementation embedded in subscription_test.go. -/
theorem c3_series_eq_closed_form :
    (∀ a b : GoTime, isMonthDate a → isMonthDate b → dateLe a b = true →
      ((genSeriesD a b).length : Int) = (b.year - a.year) * 12 + (b.month - a.month) + 1) ∧
    (∀ (rows : List Subscription) (u : String) (svc : Option String)
        (fromD toD : GoTime) (l o : Int),
      isMonthDate fromD → isMonthDate toD → dateLe fromD toD = true →
      (∀ s ∈ rows, validSub s = true) →
      Postgres.SumSubscriptionCost rows (if u = "" then none else some u) svc fromD toD =
        PostgresAlt.CostSubsByFilter rows
          { userID := u, serviceName := svc, period := some ⟨fromD, toD⟩,
            limit := l, offset := o }) := by
  constructor
  · intro a b ha hb hab
    have h := (dateLe_eq_true_iff ha hb).mp hab
    rw [genSeriesD_length]
    unfold monthIndex at h ⊢
    omega
  · intro rows u svc fromD toD l o hf ht hft hrows
    exact sumCost_eq_alt rows u svc fromD toD l o hf ht hft hrows

def c3SubA : Subscription :=
  { id := 2, userID := "u", serviceName := "Netflix", cost := 7,
    dateFrom := d2025_07, dateTo := none }

/-- Witness for C3: the series 2025-07..2025-09 has 3 entries, and on a
one-row open-ended store the sqlc aggregation and the alternative
repository's closed-form aggregation agree over 2025-07..2025-09. -/
theorem c3_series_eq_closed_form_witness :
    ((genSeriesD d2025_07 d2025_09).length : Int) =
      (d2025_09.year - d2025_07.year) * 12 + (d2025_09.month - d2025_07.month) + 1 ∧
    Postgres.SumSubscriptionCost [c3SubA]
        (if ("" : String) = "" then none else some "") none d2025_07 d2025_09 =
      PostgresAlt.CostSubsByFilter [c3SubA]
        { userID := "", serviceName := none, period := some ⟨d2025_07, d2025_09⟩,
          limit := 0, offset := 0 } :=
  ⟨c3_series_eq_closed_form.1 d2025_07 d2025_09 (by decide) (by decide) (by decide),
   c3_series_eq_closed_form.2 [c3SubA] "" none d2025_07 d2025_09 0 0
     (by decide) (by decide) (by decide) (by decide)⟩
